import Mathlib

/-!
Verification of the BeatCraft drum-sequencer core against its specification.

The definitions below are a shallow embedding of the TypeScript source:

* `src/frontend/src/hooks/useDrumSequencer.ts` — pattern store (`steps` grid,
  `toggleStep`, `setStepVelocity`, `setPattern`), transport control
  (`togglePlay`, `stop`, `setBpm`) and the swing assignment;
* `src/frontend/src/components/DualPlayback.tsx` — dual-source start/stop
  synchronization (`handlePlay`, the deferred-start timeout, `handleStop`).

Numbers (velocities, seconds, bpm) are modelled as rationals; the grid is a
list of rows of steps exactly as the React state holds it.
-/

set_option autoImplicit false

namespace BeatCraft

/-- One cell of the grid, from the source interface `DrumStep`
(`useDrumSequencer.ts` lines 20-23): an active flag and a velocity
in the range 0 to 1. -/
structure DrumStep where
  active : Bool
  velocity : ℚ
  deriving DecidableEq, Repr

/-- The pattern grid: one row per drum sound, one cell per step
(the React state `steps : DrumStep[][]`). -/
abbrev Grid := List (List DrumStep)

/-- The default cell used at initialization and as padding:
active `false`, velocity `0.7` (`useDrumSequencer.ts` lines 72-77, 375, 402). -/
def defaultStep : DrumStep := ⟨false, 7/10⟩

/-- Number of drum sounds (kick, snare, hihat, clap): the constant `4`
hard-coded as `drumSounds` in the source (`useDrumSequencer.ts` line 67). -/
def drumSounds : ℕ := 4

/-- The initial grid built at sequencer initialization
(`useDrumSequencer.ts` lines 65-78): `drumSounds` rows of
`stepsPerBeat * totalBeats` default cells. -/
def initSteps (stepsPerBeat totalBeats : ℕ) : Grid :=
  List.replicate drumSounds (List.replicate (stepsPerBeat * totalBeats) defaultStep)

/-- JavaScript array read `l[i]` with a possibly negative index:
any index outside the array yields `undefined`, modelled as `none`. -/
def getAt {α : Type} (l : List α) (i : ℤ) : Option α :=
  if i < 0 then none else l.get? i.toNat

/-- In-place style array write `l[i] = a` for an index already inside the
array (every claim-relevant write site is in range; a JS write past the end
would extend the array, which no modelled operation reaches on the paths
the claims quantify over). -/
def setAt {α : Type} (l : List α) (i : ℤ) (a : α) : List α :=
  if i < 0 then l else l.set i.toNat a

/-- Reading the cell `grid[i][j]`, `undefined` as `none`. -/
def cellAt (g : Grid) (i j : ℤ) : Option DrumStep :=
  (getAt g i).bind fun row => getAt row j

/-- Embedding of `toggleStep` (`useDrumSequencer.ts` lines 295-306).
The source has no bounds check: for an out-of-range `soundIndex` the spread
`[...prev[soundIndex]]` throws a TypeError (spread of `undefined`); for an
out-of-range `stepIndex` the read `newSteps[soundIndex][stepIndex].active`
throws a TypeError (property of `undefined`). A throw inside the state
updater means no new grid is committed; both throws are modelled as
`Except.error`. In range, the cell's `active` flag is negated and its
`velocity` is carried over by the object spread. -/
def toggleStep (g : Grid) (soundIndex stepIndex : ℤ) : Except String Grid :=
  match getAt g soundIndex with
  | none => Except.error "TypeError: spread of undefined row"
  | some row =>
    match getAt row stepIndex with
    | none => Except.error "TypeError: cannot read active of undefined"
    | some c =>
      Except.ok (setAt g soundIndex (setAt row stepIndex ⟨!c.active, c.velocity⟩))

/-- The grid actually stored after a `toggleStep` call: on a throw the React
state update never commits, so the previous grid stays. -/
def storeAfterToggle (g : Grid) (soundIndex stepIndex : ℤ) : Grid :=
  match toggleStep g soundIndex stepIndex with
  | Except.ok g' => g'
  | Except.error _ => g

/-- The velocity clamp `Math.max(0, Math.min(1, velocity))`
(`useDrumSequencer.ts` line 315). -/
def clamp01 (v : ℚ) : ℚ := max 0 (min 1 v)

/-- Embedding of `setStepVelocity` (`useDrumSequencer.ts` lines 309-319)
on its in-range path, the only path any claim quantifies over: the cell at
`(soundIndex, stepIndex)` is replaced by the same cell with velocity
`clamp01 v`. (`List.set` ignores an out-of-range index, where the JS code
would instead extend the row with a malformed cell; no claim reaches that
corner.) -/
def setStepVelocity (g : Grid) (soundIndex stepIndex : ℕ) (v : ℚ) : Grid :=
  match g.get? soundIndex with
  | none => g
  | some row =>
    match row.get? stepIndex with
    | none => g
    | some c => g.set soundIndex (row.set stepIndex ⟨c.active, clamp01 v⟩)

/-- The argument of `setPattern`: source type `boolean[][] | DrumStep[][]`
(`useDrumSequencer.ts` line 353). The source dispatches between the two
shapes with `typeof pattern[0][0] === 'boolean'`, which distinguishes
exactly these two constructors whenever the first row is nonempty; every
statement proved below is invariant under which branch handles the
empty-first-row corner. -/
inductive PatternInput where
  | bools (rows : List (List Bool))
  | cells (rows : List (List DrumStep))

/-- Row count of the input pattern (`pattern.length`). -/
def PatternInput.rowCount : PatternInput → ℕ
  | .bools rows => rows.length
  | .cells rows => rows.length

/-- Conversion of one boolean to a step, as in the boolean branch of
`setPattern`: `{ active, velocity: 0.7 }`. -/
def convBool (b : Bool) : DrumStep := ⟨b, 7/10⟩

/-- Row normalization of the boolean branch (`useDrumSequencer.ts`
lines 367-390): a short row is converted and padded with
`{active:false, velocity:0.7}`, a long row is truncated to `totalSteps`
then converted, an exact row is converted as is. -/
def normalizeBoolRow (totalSteps : ℕ) (row : List Bool) : List DrumStep :=
  if row.length < totalSteps then
    row.map convBool ++ List.replicate (totalSteps - row.length) defaultStep
  else if row.length > totalSteps then
    (row.take totalSteps).map convBool
  else
    row.map convBool

/-- Row normalization of the `DrumStep` branch (`useDrumSequencer.ts`
lines 397-411): a short row is padded with the default cell (the source
literal also carries an extra untyped `probability: 1.0` key, invisible
through the `DrumStep` interface), a long row is truncated, an exact row is
copied. -/
def normalizeStepRow (totalSteps : ℕ) (row : List DrumStep) : List DrumStep :=
  if row.length < totalSteps then
    row ++ List.replicate (totalSteps - row.length) defaultStep
  else if row.length > totalSteps then
    row.take totalSteps
  else
    row

/-- Embedding of `setPattern` (`useDrumSequencer.ts` lines 353-418).
Returns the grid held by the store after the call together with the
reported error, if any: a pattern whose row count differs from 4 is
rejected (`console.error`, early return) leaving the grid untouched;
otherwise every row is normalized and the whole grid is replaced. -/
def setPattern (totalSteps : ℕ) (g : Grid) (p : PatternInput) :
    Grid × Option String :=
  if p.rowCount ≠ 4 then
    (g, some "Invalid pattern: must be a 2D array with 4 rows")
  else
    match p with
    | .bools rows => (rows.map (normalizeBoolRow totalSteps), none)
    | .cells rows => (rows.map (normalizeStepRow totalSteps), none)

/-- The sequencer-visible state of `useDrumSequencer`: the React state
fields (`isPlaying`, `currentStep`, `bpm`, `swing`, `volume`, `steps`,
`samplesLoaded`) together with the transport position the hook manipulates
through `Tone.Transport` (pause keeps the position, stop and the explicit
`Tone.Transport.position = 0` write reset it). -/
structure SeqState where
  isPlaying : Bool
  currentStep : ℕ
  bpm : ℚ
  swing : ℚ
  volume : ℚ
  steps : Grid
  samplesLoaded : Bool
  position : ℚ
  deriving DecidableEq, Repr

/-- Embedding of `togglePlay` (`useDrumSequencer.ts` lines 252-285).
With samples not loaded it returns before touching anything. When playing,
it pauses the transport (`Tone.Transport.pause()` keeps the position) and
flips `isPlaying`. When not playing, it first writes
`Tone.Transport.position = 0` — unconditionally, whether the previous halt
was a pause or a stop — and then starts the transport. -/
def togglePlay (s : SeqState) : SeqState :=
  if !s.samplesLoaded then s
  else if s.isPlaying then
    { s with isPlaying := false }
  else
    { s with position := 0, isPlaying := true }

/-- Embedding of `stop` (`useDrumSequencer.ts` lines 288-292):
`Tone.Transport.stop()` halts and resets the position, then the hook sets
`isPlaying := false` and `currentStep := 0`. -/
def stop (s : SeqState) : SeqState :=
  { s with isPlaying := false, position := 0, currentStep := 0 }

/-- Embedding of `setBpm` (`useDrumSequencer.ts` line 60): the raw React
state setter, storing the argument exactly as given. -/
def setBpmState (s : SeqState) (v : ℚ) : SeqState :=
  { s with bpm := v }

/-- Embedding of the bpm effect (`useDrumSequencer.ts` lines 179-181): the
value written to `Tone.Transport.bpm.value` is the stored bpm, unmodified. -/
def bpmEffectValue (s : SeqState) : ℚ := s.bpm

/-- The observable state of the `DualPlayback` component relevant to the
dual-start and stop logic: the component's `isPlaying` flag, whether the
transport and the secondary-source player have been started, the transport
position, and whether a player instance exists and has finished loading
(`playerRef.current` and `playerRef.current.loaded`). -/
structure DualState where
  isPlaying : Bool
  transportStarted : Bool
  playerStarted : Bool
  position : ℚ
  playerExists : Bool
  playerLoaded : Bool
  deriving DecidableEq, Repr

/-- Embedding of the loaded branch of `handlePlay`
(`DualPlayback.tsx` lines 177-197): one timestamp `now` is captured by a
single `Tone.now()` call, then for `offset < 0` the transport is scheduled
at `now + |offset|` and the player at `now`, and for `offset >= 0` the
transport at `now` and the player at `now + offset`. The result is the pair
(transport start time, player start time). -/
def handlePlayStartTimes (now offset : ℚ) : ℚ × ℚ :=
  if offset < 0 then (now + |offset|, now) else (now, now + offset)

/-- Embedding of the `onceLoaded` closure of `handlePlay`
(`DualPlayback.tsx` lines 203-219): if a player instance exists, it starts
both the transport and the player from one fresh timestamp; it consults
nothing but `playerRef.current`. -/
def onceLoaded (s : DualState) : DualState :=
  if s.playerExists then
    { s with transportStarted := true, playerStarted := true }
  else s

/-- Embedding of the deferred-start timeout body of `handlePlay`
(`DualPlayback.tsx` lines 222-229): after 100 ms it runs `onceLoaded` when
the player exists and is loaded, and otherwise starts the transport anyway
for the drums. No playing-state or stop check appears anywhere on this
path. -/
def deferredStart (s : DualState) : DualState :=
  if s.playerExists && s.playerLoaded then onceLoaded s
  else { s with transportStarted := true }

/-- Embedding of `handleStop` (`DualPlayback.tsx` lines 257-292): stops the
player and the transport at one shared timestamp, resets the transport
position to 0 and clears `isPlaying`. The player instance is neither
disposed nor detached, so `playerExists` and `playerLoaded` are unchanged. -/
def handleStop (s : DualState) : DualState :=
  { s with playerStarted := false, transportStarted := false,
           position := 0, isPlaying := false }

/-- Modelled from the spec: the groove (swing) timing algorithm itself runs
inside the external Tone.js transport — the repository only assigns the
ratio to `Tone.Transport.swing` (`useDrumSequencer.ts` lines 184-186) — so
the delay a subdivision receives is taken from spec section 4.2: higher
ratios delay every second subdivision by up to a configured maximum
fraction of a step. `stepDur` is one subdivision duration, `maxFrac` the
configured maximum fraction, `s` the swing ratio, `i` the subdivision
index. -/
def swingDelay (stepDur maxFrac s : ℚ) (i : ℕ) : ℚ :=
  if i % 2 = 1 then s * maxFrac * stepDur else 0

/-- Modelled from the spec: the scheduled time of subdivision `i` under
swing — the straight grid time plus the swing delay of spec section 4.2. -/
def tickTime (stepDur maxFrac s : ℚ) (i : ℕ) : ℚ :=
  i * stepDur + swingDelay stepDur maxFrac s i

/-! ### Concrete states used by witnesses and counterexamples -/

/-- The sequencer state right after initialization with the default
arguments (`useDrumSequencer(120, 0, 4, 4)`): not playing, step 0, bpm 120,
swing 0, volume 0, the default 4 by 16 grid, samples not yet loaded,
transport at position 0. -/
def initialSeqState : SeqState :=
  { isPlaying := false, currentStep := 0, bpm := 120, swing := 0,
    volume := 0, steps := initSteps 4 4, samplesLoaded := true,
    position := 0 }

/-- A sequencer state mid-playback: samples loaded, playing, transport
advanced to position 5. -/
def playingAt5 : SeqState :=
  { isPlaying := true, currentStep := 3, bpm := 120, swing := 0,
    volume := 0, steps := initSteps 4 4, samplesLoaded := true,
    position := 5 }

/-- A `DualPlayback` state while a deferred start is pending: the play
button was pressed with a player that was not yet loaded (so
`setIsPlaying(true)` already ran but nothing is started), and the player
has finished loading in the meantime. -/
def pendingDeferred : DualState :=
  { isPlaying := true, transportStarted := false, playerStarted := false,
    position := 0, playerExists := true, playerLoaded := true }

/-! ### Claims -/

/-- C1: for every play() invocation with a loaded secondary source and
offset o, both start times are computed from the single captured timestamp
`now`: if o is negative the player starts at `now` and the transport at
`now + |o|`; if o is nonnegative the transport starts at `now` and the
player at `now + o`; the gap between the two scheduled start times is
exactly `|o|`. -/
theorem dualStart_single_timestamp (now o : ℚ) :
    (o < 0 → (handlePlayStartTimes now o).2 = now ∧
      (handlePlayStartTimes now o).1 = now + |o|) ∧
    (0 ≤ o → (handlePlayStartTimes now o).1 = now ∧
      (handlePlayStartTimes now o).2 = now + o) ∧
    |(handlePlayStartTimes now o).2 - (handlePlayStartTimes now o).1| = |o| := by
  unfold handlePlayStartTimes
  by_cases h : o < 0
  · rw [if_pos h]
    refine ⟨fun _ => ⟨rfl, rfl⟩, fun h0 => absurd h (not_lt.mpr h0), ?_⟩
    have he : now - (now + |o|) = -|o| := by ring
    rw [he, abs_neg, abs_abs]
  · rw [if_neg h]
    refine ⟨fun hlt => absurd hlt h, fun _ => ⟨rfl, rfl⟩, ?_⟩
    have he : now + o - now = o := by ring
    rw [he]

/-- Witness for C1 at now = 5, offset = -1/10. -/
theorem dualStart_single_timestamp_witness :
    (handlePlayStartTimes 5 (-1/10)).2 = 5 ∧
    (handlePlayStartTimes 5 (-1/10)).1 = 5 + |(-1/10 : ℚ)| := by
  have h := (dualStart_single_timestamp 5 (-1/10)).1 (by norm_num)
  exact h

/-- C2: at swing ratio 0 all subdivisions are equally spaced; at a positive
swing ratio only odd-indexed subdivisions are shifted later (even ones keep
their straight grid time and no subdivision is ever shifted earlier); the
delay applied to odd subdivisions grows strictly with the swing ratio. -/
theorem swing_invariant (d mf : ℚ) (hd : 0 < d) (hmf : 0 < mf) :
    (∀ i : ℕ, tickTime d mf 0 (i + 1) - tickTime d mf 0 i = d) ∧
    (∀ s : ℚ, 0 < s → ∀ i : ℕ,
      (i % 2 = 0 → tickTime d mf s i = i * d) ∧
      (i % 2 = 1 → (i : ℚ) * d < tickTime d mf s i) ∧
      (i : ℚ) * d ≤ tickTime d mf s i) ∧
    (∀ s₁ s₂ : ℚ, s₁ < s₂ → ∀ i : ℕ, i % 2 = 1 →
      swingDelay d mf s₁ i < swingDelay d mf s₂ i) := by
  refine ⟨?_, ?_, ?_⟩
  · intro i
    simp only [tickTime, swingDelay, zero_mul, ite_self]
    push_cast
    ring
  · intro s hs i
    have hpos : 0 < s * mf * d := mul_pos (mul_pos hs hmf) hd
    refine ⟨?_, ?_, ?_⟩
    · intro h
      simp [tickTime, swingDelay, h]
    · intro h
      simp only [tickTime, swingDelay, h, if_pos]
      linarith
    · by_cases h : i % 2 = 1
      · simp only [tickTime, swingDelay, h, if_pos]
        linarith
      · simp [tickTime, swingDelay, h]
  · intro s₁ s₂ h i hi
    simp only [swingDelay, hi, if_pos]
    have h1 : s₁ * mf < s₂ * mf := mul_lt_mul_of_pos_right h hmf
    exact mul_lt_mul_of_pos_right h1 hd

/-- Witness for C2 at a sixteenth-note duration of 1/4 and maximum swing
fraction 2/3: subdivision 1 is strictly delayed at ratio 1/2. -/
theorem swing_invariant_witness :
    ((1 : ℕ) : ℚ) * (1/4) < tickTime (1/4) (2/3) (1/2) 1 := by
  have h := ((swing_invariant (1/4) (2/3) (by norm_num) (by norm_num)).2.1
    (1/2) (by norm_num) 1).2.1
  exact h rfl

/-- C3: a pattern whose row count differs from the instrument count 4 is
rejected: the stored grid is returned unchanged and an error is reported. -/
theorem setPattern_wrong_rowCount_unchanged (n : ℕ) (g : Grid)
    (p : PatternInput) (h : p.rowCount ≠ 4) :
    (setPattern n g p).1 = g ∧ (setPattern n g p).2.isSome = true := by
  simp [setPattern, h]

/-- Witness for C3: a three-row pattern leaves the initial grid untouched
and reports an error. -/
theorem setPattern_wrong_rowCount_unchanged_witness :
    (setPattern 16 (initSteps 4 4)
      (PatternInput.bools [[true], [false], [true]])).1 = initSteps 4 4 ∧
    (setPattern 16 (initSteps 4 4)
      (PatternInput.bools [[true], [false], [true]])).2.isSome = true :=
  setPattern_wrong_rowCount_unchanged 16 (initSteps 4 4)
    (PatternInput.bools [[true], [false], [true]]) (by decide)

/-- C10: with samples not yet loaded, togglePlay is a complete no-op: the
whole sequencer state — isPlaying, position, currentStep, bpm, swing,
volume, grid — is returned unchanged, so drum playback cannot begin before
the sink is ready. -/
theorem togglePlay_noop_before_samples (s : SeqState)
    (h : s.samplesLoaded = false) : togglePlay s = s := by
  simp [togglePlay, h]

/-- Witness for C10 at the initial state with samples still loading. -/
theorem togglePlay_noop_before_samples_witness :
    togglePlay { initialSeqState with samplesLoaded := false }
      = { initialSeqState with samplesLoaded := false } :=
  togglePlay_noop_before_samples { initialSeqState with samplesLoaded := false } rfl

/-- C7 counterexample: setBpm(1000) stores 1000 — far outside every sane
range (and outside the quoted 20 to 400) — and the bpm effect applies
exactly that stored value to the transport; setBpm(-5) likewise stores a
negative tempo. The input is neither clamped nor rejected. -/
theorem setBpm_no_clamp_counterexample :
    (setBpmState initialSeqState 1000).bpm = 1000 ∧
    bpmEffectValue (setBpmState initialSeqState 1000) = 1000 ∧
    ¬ ((20 : ℚ) ≤ 1000 ∧ (1000 : ℚ) ≤ 400) ∧
    (setBpmState initialSeqState (-5)).bpm = -5 := by
  refine ⟨rfl, rfl, ?_, rfl⟩
  intro h
  exact absurd h.2 (by norm_num)

/-- C7 amended: setBpm performs no validation at all — every input value is
stored verbatim and the bpm effect applies the stored value verbatim to the
transport. -/
theorem setBpm_stores_verbatim (s : SeqState) (v : ℚ) :
    (setBpmState s v).bpm = v ∧ bpmEffectValue (setBpmState s v) = v :=
  ⟨rfl, rfl⟩

/-- A normalized step row is the truncation of the input row followed by
default-step padding up to the expected length. -/
theorem normalizeStepRow_eq (n : ℕ) (row : List DrumStep) :
    normalizeStepRow n row
      = row.take n ++ List.replicate (n - row.length) defaultStep := by
  unfold normalizeStepRow
  rcases lt_trichotomy row.length n with h | h | h
  · rw [if_pos h, List.take_of_length_le (le_of_lt h)]
  · rw [if_neg (by omega), if_neg (by omega),
      List.take_of_length_le (le_of_eq h), h, Nat.sub_self]
    simp
  · rw [if_neg (by omega), if_pos h, Nat.sub_eq_zero_of_le (le_of_lt h)]
    simp

/-- A normalized boolean row is the truncation of the converted row
followed by default-step padding up to the expected length. -/
theorem normalizeBoolRow_eq (n : ℕ) (row : List Bool) :
    normalizeBoolRow n row
      = (row.map convBool).take n
        ++ List.replicate (n - row.length) defaultStep := by
  unfold normalizeBoolRow
  rcases lt_trichotomy row.length n with h | h | h
  · rw [if_pos h, List.take_of_length_le (by simpa using le_of_lt h)]
  · rw [if_neg (by omega), if_neg (by omega),
      List.take_of_length_le (by simpa using le_of_eq h), h, Nat.sub_self]
    simp
  · rw [if_neg (by omega), if_pos h, Nat.sub_eq_zero_of_le (le_of_lt h),
      List.map_take]
    simp

/-- C4: a pattern with the correct row count 4 is loaded without error;
every row longer than the expected length is truncated to it and every
shorter row is padded at the end with cells equal to the default step,
whose fields are active false and velocity 0.7; every resulting row has
exactly the expected length. -/
theorem setPattern_normalizes (n : ℕ) (g : Grid) (p : PatternInput)
    (h : p.rowCount = 4) :
    (setPattern n g p).2 = none ∧
    (∀ row ∈ (setPattern n g p).1, row.length = n) ∧
    defaultStep.active = false ∧ defaultStep.velocity = 7/10 ∧
    (∀ rows, p = PatternInput.bools rows →
      (setPattern n g p).1
        = rows.map (fun row => (row.map convBool).take n
            ++ List.replicate (n - row.length) defaultStep)) ∧
    (∀ rows, p = PatternInput.cells rows →
      (setPattern n g p).1
        = rows.map (fun row => row.take n
            ++ List.replicate (n - row.length) defaultStep)) := by
  have hcond : ¬ p.rowCount ≠ 4 := by omega
  cases p with
  | bools rows =>
    unfold setPattern
    rw [if_neg hcond]
    refine ⟨rfl, ?_, rfl, rfl, ?_, ?_⟩
    · intro row hrow
      rcases List.mem_map.mp hrow with ⟨orig, _, rfl⟩
      rw [normalizeBoolRow_eq]
      simp only [List.length_append, List.length_take,
        List.length_replicate, List.length_map]
      omega
    · intro rows' hrows
      cases hrows
      exact List.map_congr_left fun r _ => normalizeBoolRow_eq n r
    · intro rows' hrows
      cases hrows
  | cells rows =>
    unfold setPattern
    rw [if_neg hcond]
    refine ⟨rfl, ?_, rfl, rfl, ?_, ?_⟩
    · intro row hrow
      rcases List.mem_map.mp hrow with ⟨orig, _, rfl⟩
      rw [normalizeStepRow_eq]
      simp only [List.length_append, List.length_take, List.length_replicate]
      omega
    · intro rows' hrows
      cases hrows
    · intro rows' hrows
      cases hrows
      exact List.map_congr_left fun r _ => normalizeStepRow_eq n r

/-- Witness for C4: a boolean pattern with one undersized, one oversized,
one exact and one empty row, loaded at expected length 2, produces rows of
length 2 exactly, with no error. -/
theorem setPattern_normalizes_witness :
    (setPattern 2 []
      (PatternInput.bools [[true], [true, false, true], [false, false], []])).2
        = none ∧
    (∀ row ∈ (setPattern 2 []
      (PatternInput.bools [[true], [true, false, true], [false, false], []])).1,
        row.length = 2) :=
  ⟨(setPattern_normalizes 2 []
      (PatternInput.bools [[true], [true, false, true], [false, false], []])
      (by decide)).1,
   (setPattern_normalizes 2 []
      (PatternInput.bools [[true], [true, false, true], [false, false], []])
      (by decide)).2.1⟩

/-- C5 counterexample: pausing from playback at transport position 5 keeps
position 5 (pause preserves position), but the next togglePlay start resets
the position to 0 instead of resuming from 5 — contradicting the claim that
after a mere pause the position is preserved across the restart. -/
theorem start_resets_after_pause_counterexample :
    (togglePlay playingAt5).isPlaying = false ∧
    (togglePlay playingAt5).position = 5 ∧
    (togglePlay (togglePlay playingAt5)).isPlaying = true ∧
    (togglePlay (togglePlay playingAt5)).position = 0 := by
  refine ⟨rfl, rfl, rfl, rfl⟩

/-- C5 amended: pause preserves the position while paused and stop resets
position and currentStep to 0, but a togglePlay start always resets the
position to 0, whether the previous state was paused or fully stopped —
playback never resumes from a paused position. -/
theorem togglePlay_always_resets_position (s : SeqState)
    (h : s.samplesLoaded = true) :
    (s.isPlaying = true → togglePlay s = { s with isPlaying := false }) ∧
    (s.isPlaying = false →
      togglePlay s = { s with position := 0, isPlaying := true }) ∧
    stop s = { s with isPlaying := false, position := 0, currentStep := 0 } := by
  refine ⟨?_, ?_, rfl⟩
  · intro hp
    simp [togglePlay, h, hp]
  · intro hp
    simp [togglePlay, h, hp]

/-- Witness for C5 amended at the paused-at-5 state reached from
`playingAt5`. -/
theorem togglePlay_always_resets_position_witness :
    togglePlay { playingAt5 with isPlaying := false }
      = { { playingAt5 with isPlaying := false } with
          position := 0, isPlaying := true } :=
  (togglePlay_always_resets_position
    { playingAt5 with isPlaying := false } rfl).2.1 rfl

/-- C6 counterexample: stop() is called while a deferred start is pending
(player exists and has loaded); the deferred callback then fires and starts
both the transport and the player even though the component is stopped —
it does not abort, so stale playback does start after the stop. -/
theorem deferredStart_after_stop_counterexample :
    (handleStop pendingDeferred).isPlaying = false ∧
    (handleStop pendingDeferred).transportStarted = false ∧
    (deferredStart (handleStop pendingDeferred)).transportStarted = true ∧
    (deferredStart (handleStop pendingDeferred)).playerStarted = true := by
  refine ⟨rfl, rfl, rfl, rfl⟩

/-- C6 amended: the deferred-start callback consults only the player
reference and its loaded flag, never the playing state: fired after a
stop it always starts the transport (and the player too when it exists and
is loaded), and it is entirely insensitive to the isPlaying flag. -/
theorem deferredStart_ignores_stop (s : DualState) :
    (deferredStart (handleStop s)).transportStarted = true ∧
    (s.playerExists = true → s.playerLoaded = true →
      (deferredStart (handleStop s)).playerStarted = true) ∧
    (∀ b, deferredStart { s with isPlaying := b }
        = { deferredStart s with isPlaying := b }) := by
  refine ⟨?_, ?_, ?_⟩
  · by_cases he : s.playerExists
    · by_cases hl : s.playerLoaded
      · simp [deferredStart, handleStop, onceLoaded, he, hl]
      · simp [deferredStart, handleStop, onceLoaded, he, hl]
    · simp [deferredStart, handleStop, onceLoaded, he]
  · intro he hl
    simp [deferredStart, handleStop, onceLoaded, he, hl]
  · intro b
    by_cases he : s.playerExists
    · by_cases hl : s.playerLoaded
      · simp [deferredStart, onceLoaded, he, hl]
      · simp [deferredStart, onceLoaded, he, hl]
    · simp [deferredStart, onceLoaded, he]

/-- Witness for C6 amended at the pending-deferred state. -/
theorem deferredStart_ignores_stop_witness :
    (deferredStart (handleStop pendingDeferred)).transportStarted = true ∧
    (deferredStart (handleStop pendingDeferred)).playerStarted = true :=
  ⟨(deferredStart_ignores_stop pendingDeferred).1,
   (deferredStart_ignores_stop pendingDeferred).2.1 rfl rfl⟩

/-- Reading back a just-written list position yields the written value. -/
theorem get?_set_self {α : Type} (l : List α) (n : ℕ) (a : α)
    (h : n < l.length) : (l.set n a).get? n = some a := by
  simp [List.get?_eq_getElem?, List.getElem?_set_self', List.getElem?_eq_getElem h]

/-- Reading back a just-written JS index yields the written value, provided
the index was readable before the write. -/
theorem getAt_setAt_self {α : Type} (l : List α) (i : ℤ) (a b : α)
    (h : getAt l i = some a) : getAt (setAt l i b) i = some b := by
  unfold getAt at h
  unfold getAt setAt
  by_cases hi : i < 0
  · rw [if_pos hi] at h
    cases h
  · rw [if_neg hi] at h ⊢
    rw [if_neg hi]
    have hlen : i.toNat < l.length := by
      by_contra hc
      push_neg at hc
      rw [List.get?_eq_none.mpr hc] at h
      cases h
    exact get?_set_self l i.toNat b hlen

/-- Reading the cell `grid[i][j]` with natural-number indices, as the
in-range claims address the grid. -/
def cellAtNat (g : Grid) (i j : ℕ) : Option DrumStep :=
  (g.get? i).bind fun row => row.get? j

/-- C8: for in-range indices, setStepVelocity stores the clamp of the given
velocity into the addressed cell and preserves its active flag; the clamp
maps -5 to 0 and 5 to 1, always lands in the unit interval, and repeating
the identical call leaves the grid exactly as after the first call. -/
theorem setStepVelocity_clamps (g : Grid) (i j : ℕ) (v : ℚ)
    (row : List DrumStep) (c : DrumStep)
    (hi : g.get? i = some row) (hj : row.get? j = some c) :
    cellAtNat (setStepVelocity g i j v) i j = some ⟨c.active, clamp01 v⟩ ∧
    clamp01 (-5 : ℚ) = 0 ∧ clamp01 (5 : ℚ) = 1 ∧
    (0 ≤ clamp01 v ∧ clamp01 v ≤ 1) ∧
    setStepVelocity (setStepVelocity g i j v) i j v
      = setStepVelocity g i j v := by
  have hilen : i < g.length := by
    by_contra hc
    push_neg at hc
    rw [List.get?_eq_none.mpr hc] at hi
    cases hi
  have hjlen : j < row.length := by
    by_contra hc
    push_neg at hc
    rw [List.get?_eq_none.mpr hc] at hj
    cases hj
  have hig : g[i]? = some row := by
    rw [← List.get?_eq_getElem?]
    exact hi
  have hjr : row[j]? = some c := by
    rw [← List.get?_eq_getElem?]
    exact hj
  have hstep : setStepVelocity g i j v
      = g.set i (row.set j ⟨c.active, clamp01 v⟩) := by
    simp [setStepVelocity, hig, hjr]
  refine ⟨?_, by norm_num [clamp01], by norm_num [clamp01], ⟨?_, ?_⟩, ?_⟩
  · rw [hstep]
    unfold cellAtNat
    rw [get?_set_self g i _ hilen]
    exact get?_set_self row j _ hjlen
  · exact le_max_left 0 _
  · exact max_le (by norm_num) (min_le_left 1 v)
  · have hi' : (g.set i (row.set j ⟨c.active, clamp01 v⟩))[i]?
        = some (row.set j ⟨c.active, clamp01 v⟩) := by
      rw [← List.get?_eq_getElem?]
      exact get?_set_self g i _ hilen
    have hj' : (row.set j ⟨c.active, clamp01 v⟩)[j]?
        = some (⟨c.active, clamp01 v⟩ : DrumStep) := by
      rw [← List.get?_eq_getElem?]
      exact get?_set_self row j _ hjlen
    rw [hstep]
    simp [setStepVelocity, hi', hj', List.set_set]

/-- Witness for C8: storing velocity -5 into cell (0,0) of the initial grid
yields a stored velocity of clamp01(-5) = 0 with the active flag kept. -/
theorem setStepVelocity_clamps_witness :
    cellAtNat (setStepVelocity (initSteps 4 4) 0 0 (-5)) 0 0
      = some ⟨defaultStep.active, clamp01 (-5)⟩ ∧
    clamp01 (-5 : ℚ) = 0 :=
  ⟨(setStepVelocity_clamps (initSteps 4 4) 0 0 (-5)
      (List.replicate 16 defaultStep) defaultStep rfl rfl).1,
   (setStepVelocity_clamps (initSteps 4 4) 0 0 (-5)
      (List.replicate 16 defaultStep) defaultStep rfl rfl).2.1⟩

/-- C9: a toggleStep call with an out-of-range instrument or step index
fails with an error — the undefined-access TypeError the unchecked code
throws — and the stored grid is left unchanged; with in-range indices it
flips the addressed cell's active flag and preserves its velocity. -/
theorem toggleStep_bounds (g : Grid) (i j : ℤ) :
    (cellAt g i j = none →
      (∃ e, toggleStep g i j = Except.error e) ∧
      storeAfterToggle g i j = g) ∧
    (∀ c, cellAt g i j = some c →
      cellAt (storeAfterToggle g i j) i j
        = some ⟨!c.active, c.velocity⟩) := by
  cases hrow : getAt g i with
  | none =>
    refine ⟨fun _ => ⟨⟨"TypeError: spread of undefined row", ?_⟩, ?_⟩,
      fun c hc => ?_⟩
    · simp [toggleStep, hrow]
    · simp [storeAfterToggle, toggleStep, hrow]
    · exact absurd hc (by simp [cellAt, hrow])
  | some row =>
    cases hcell : getAt row j with
    | none =>
      refine ⟨fun _ =>
        ⟨⟨"TypeError: cannot read active of undefined", ?_⟩, ?_⟩,
        fun c hc => ?_⟩
      · simp [toggleStep, hrow, hcell]
      · simp [storeAfterToggle, toggleStep, hrow, hcell]
      · exact absurd hc (by simp [cellAt, hrow, hcell])
    | some c0 =>
      refine ⟨fun hn => absurd hn (by simp [cellAt, hrow, hcell]), ?_⟩
      intro c hc
      have hc0 : c0 = c := by
        have : some c0 = some c := by
          rw [← hcell, ← hc]
          simp [cellAt, hrow]
        exact Option.some.inj this
      subst hc0
      have hstore : storeAfterToggle g i j
          = setAt g i (setAt row j ⟨!c0.active, c0.velocity⟩) := by
        simp [storeAfterToggle, toggleStep, hrow, hcell]
      rw [hstore]
      unfold cellAt
      rw [getAt_setAt_self g i row _ hrow]
      exact getAt_setAt_self row j c0 _ hcell

/-- Witness for C9: instrument index 10 is rejected with an error and the
initial grid is kept; toggling cell (0,0) in range flips its active flag to
true with velocity 0.7 preserved. -/
theorem toggleStep_bounds_witness :
    ((∃ e, toggleStep (initSteps 4 4) 10 0 = Except.error e) ∧
      storeAfterToggle (initSteps 4 4) 10 0 = initSteps 4 4) ∧
    cellAt (storeAfterToggle (initSteps 4 4) 0 0) 0 0
      = some ⟨!defaultStep.active, defaultStep.velocity⟩ :=
  ⟨(toggleStep_bounds (initSteps 4 4) 10 0).1 rfl,
   (toggleStep_bounds (initSteps 4 4) 0 0).2 defaultStep rfl⟩

end BeatCraft
